import Mathlib

/-!
Shallow embedding of `src/ale/drivers/lro_drivers.py`, the
`LroLrocPds3LabelNaifSpiceDriver` class: a driver deriving camera metadata
for the LROC NAC instrument from a PDS3 label and a SPICE ephemeris store.

The base classes (`Pds3Label`, `NaifSpice`, `LineScanner`, `Driver`) are not
part of this repository fragment; the values the overridden properties read
from them (the generic instrument id, the instrument host id, the label
fields, the generic exposure duration, the spacecraft id, the SPICE kernel
pool) are modelled as explicit inputs.  Floating-point arithmetic is
modelled over `ℚ` (the constants 0.0045, 0.0, 1024.0 are exactly
representable, so every identity proved here is exact).
-/

namespace LroDrivers

/-- Inputs the driver reads from its label and from the base classes that are
outside this fragment: `base_instrument_id` is `super().instrument_id` (from
`Pds3Label`), `frame_id` is `self.label.get("FRAME_ID")` (absent modelled as
`none`), `instrument_host_id` is the `Pds3Label` property of the same name,
`preroll_count` is `self.label['LRO:SPACECRAFT_CLOCK_PREROLL_COUNT']`,
`utc_start_year` is `self.utc_start_time.year`, and
`base_exposure_duration` is `super().exposure_duration` (from
`LineScanner`). -/
structure Pds3LabelData where
  base_instrument_id : String
  frame_id : Option String
  instrument_host_id : String
  preroll_count : String
  utc_start_year : Nat
  base_exposure_duration : ℚ

/-- The SPICE collaborator: `scs2e` converts a spacecraft clock string to an
ephemeris time for a given spacecraft id, and `poolVars` is the kernel pool
(`gdpool` reads slices of it).  `spacecraft_id` is the driver's
`self.spacecraft_id` (from the NAIF base class). -/
structure SpiceStore where
  scs2e : Int → String → ℚ
  poolVars : String → List ℚ
  spacecraft_id : Int

/-- Source `instrument_id` (lines 22-43): returns "LRO_LROCNACL" when the
generic instrument id is "LROC" and the label's FRAME_ID is "LEFT",
"LRO_LROCNACR" when it is "RIGHT", and falls off the end of the function
(Python's implicit `None`) otherwise. -/
def instrument_id (l : Pds3LabelData) : Option String :=
  if l.base_instrument_id = "LROC" ∧ l.frame_id = some "LEFT" then
    some "LRO_LROCNACL"
  else if l.base_instrument_id = "LROC" ∧ l.frame_id = some "RIGHT" then
    some "LRO_LROCNACR"
  else
    none

/-- Source `spacecraft_name` (lines 67-79): pure delegation to the
`instrument_host_id` property of the PDS3 label base class. -/
def spacecraft_name (l : Pds3LabelData) : String :=
  l.instrument_host_id

/-- Source `sensor_model_version` (lines 81-91). -/
def sensor_model_version : Int := 2

/-- Source `light_time_correction` (lines 122-139): the constant string
'NONE', whatever the label and store contain. -/
def light_time_correction (_l : Pds3LabelData) (_s : SpiceStore) : String :=
  "NONE"

/-- The per-instrument kernel-pool key `'INS{}_OD_K'.format(self.ikid)`. -/
def odKey (ikid : Int) : String :=
  "INS" ++ toString ikid ++ "_OD_K"

/-- `spice.gdpool(name, start, room)`: the slice of at most `room` values of
the pool variable `name` starting at index `start`. -/
def gdpool (pool : String → List ℚ) (name : String) (start room : Nat) : List ℚ :=
  ((pool name).drop start).take room

/-- Source `odtk` (lines 110-120): `spice.gdpool('INS{}_OD_K'.format(self.ikid), 0, 1).tolist()`. -/
def odtk (s : SpiceStore) (ikid : Int) : List ℚ :=
  gdpool s.poolVars (odKey ikid) 0 1

/-- Source `usgscsm_distortion_model` (lines 93-108): the one-key dict
`{"lrolrocnac": {"coefficients": self.odtk}}`, modelled as an association
list. -/
def usgscsm_distortion_model (s : SpiceStore) (ikid : Int) :
    List (String × List (String × List ℚ)) :=
  [("lrolrocnac", [("coefficients", odtk s ikid)])]

/-- Source `multipli_line_error` (lines 167-177). -/
def multipli_line_error : ℚ := 0.0045

/-- Source `additive_line_error` (lines 179-189). -/
def additive_line_error : ℚ := 0.0

/-- Source `constant_time_offset` (lines 191-201). -/
def constant_time_offset : ℚ := 0.0

/-- Source `additional_preroll` (lines 203-213). -/
def additional_preroll : ℚ := 1024.0

/-- Source `exposure_duration` (lines 154-165):
`super().exposure_duration * (1 + self.multipli_line_error) + self.additive_line_error`. -/
def exposure_duration (l : Pds3LabelData) : ℚ :=
  l.base_exposure_duration * (1 + multipli_line_error) + additive_line_error

/-- Source `ephemeris_start_time` (lines 141-152):
`spice.scs2e(self.spacecraft_id, self.label['LRO:SPACECRAFT_CLOCK_PREROLL_COUNT'])`
plus `self.constant_time_offset + self.additional_preroll * self.exposure_duration`. -/
def ephemeris_start_time (l : Pds3LabelData) (s : SpiceStore) : ℚ :=
  let start_time := s.scs2e s.spacecraft_id l.preroll_count
  start_time + constant_time_offset + additional_preroll * exposure_duration l

/-- Python string comparison, lexicographic on code points: the order
`sorted` uses on the glob result in `metakernel` (line 58). -/
def charListLe : List Char → List Char → Bool
  | [], _ => true
  | _ :: _, [] => false
  | a :: as, b :: bs =>
      if a < b then true
      else if b < a then false
      else charListLe as bs

/-- Python `a <= b` on strings. -/
def strLe (a b : String) : Bool :=
  charListLe a.data b.data

/-- `strLe` as a relation, for use with the sorting library. -/
def strLeRel : String → String → Prop := fun a b => strLe a b = true

instance : DecidableRel strLeRel :=
  fun a b => inferInstanceAs (Decidable (strLe a b = true))

/-- `os.path.basename`: the part of the path after the last '/'. -/
def basename (p : String) : String :=
  String.mk ((p.data.reverse.takeWhile (fun c => c ≠ '/')).reverse)

/-- Python's substring test `sub in s`. -/
def strContainsSub (s sub : String) : Bool :=
  (List.range (s.data.length + 1)).any fun i => sub.data.isPrefixOf (s.data.drop i)

/-- `sorted(glob(...))` (line 58): the '*.tm' listing of the configured
directory, in ascending lexicographic order.  String lexicographic order is
antisymmetric, so the sorted permutation is unique and any correct sort
models Python's `sorted`; we use insertion sort. -/
def sortedFilenames (files : List String) : List String :=
  files.insertionSort strLeRel

/-- The `for` loop of `metakernel` (lines 60-63): `_metakernel` starts as
`None` and is overwritten by every file whose basename contains the decimal
rendering of the start year. -/
def metakernel_scan (year : Nat) (mks : List String) : Option String :=
  mks.foldl
    (fun acc mk =>
      if strContainsSub (basename mk) (toString year) then some mk else acc)
    none

/-- Source `metakernel` (lines 46-64) on a cold cache, as a function of the
glob result `files` and the product start year. -/
def metakernel_compute (year : Nat) (files : List String) : Option String :=
  metakernel_scan year (sortedFilenames files)

/-- The driver's mutable attribute state: `_metakernel` is absent until the
first access of the `metakernel` property (`hasattr` test, line 59). -/
structure DriverCache where
  _metakernel : Option (Option String)

/-- A freshly constructed driver: no `_metakernel` attribute yet. -/
def initCache : DriverCache := ⟨none⟩

/-- Source `metakernel` (lines 46-64) as a state transformer: when the
`_metakernel` attribute exists its value is returned unchanged; otherwise
the scan runs on the current directory listing and its result is stored. -/
def metakernel_property (year : Nat) (files : List String) (c : DriverCache) :
    Option String × DriverCache :=
  match c._metakernel with
  | some v => (v, c)
  | none => (metakernel_compute year files, ⟨some (metakernel_compute year files)⟩)

/-- A sequence of accesses to the `metakernel` property, each with the
directory listing and start year observed at that access. -/
def metakernel_accesses :
    List (Nat × List String) → DriverCache → List (Option String) × DriverCache
  | [], c => ([], c)
  | (y, fs) :: rest, c =>
      let r := metakernel_property y fs c
      let rs := metakernel_accesses rest r.2
      (r.1 :: rs.1, rs.2)

/-- A concrete label used by witness theorems. -/
def sampleLabel : Pds3LabelData :=
  { base_instrument_id := "LROC"
    frame_id := some "LEFT"
    instrument_host_id := "LUNAR RECONNAISSANCE ORBITER"
    preroll_count := "1/274692469:15073"
    utc_start_year := 2009
    base_exposure_duration := 1 }

/-- Claim C1: when the generic instrument id is "LROC", a FRAME_ID of
"LEFT" resolves to "LRO_LROCNACL", a FRAME_ID of "RIGHT" resolves to
"LRO_LROCNACR", and any other FRAME_ID value (including an absent one)
yields an absent result. -/
theorem instrument_id_resolution (l : Pds3LabelData)
    (hbase : l.base_instrument_id = "LROC") :
    (l.frame_id = some "LEFT" → instrument_id l = some "LRO_LROCNACL") ∧
    (l.frame_id = some "RIGHT" → instrument_id l = some "LRO_LROCNACR") ∧
    (l.frame_id ≠ some "LEFT" → l.frame_id ≠ some "RIGHT" →
      instrument_id l = none) := by
  refine ⟨fun h => ?_, fun h => ?_, fun h1 h2 => ?_⟩
  · simp [instrument_id, hbase, h]
  · simp [instrument_id, hbase, h]
  · simp [instrument_id, hbase, h1, h2]

/-- Witness for C1: the left channel resolves on a concrete label. -/
theorem instrument_id_resolution_witness :
    instrument_id sampleLabel = some "LRO_LROCNACL" :=
  (instrument_id_resolution sampleLabel rfl).1 rfl

/-- Claim C10 (implicit): whenever the generic instrument id differs from
"LROC", `instrument_id` is absent even for FRAME_ID "LEFT" or "RIGHT". -/
theorem instrument_id_requires_lroc (l : Pds3LabelData)
    (hbase : l.base_instrument_id ≠ "LROC") :
    instrument_id l = none := by
  simp [instrument_id, hbase]

/-- Witness for C10: a "WAC" label with FRAME_ID "LEFT" resolves to nothing. -/
theorem instrument_id_requires_lroc_witness :
    instrument_id { sampleLabel with base_instrument_id := "LROCWAC" } = none :=
  instrument_id_requires_lroc
    { sampleLabel with base_instrument_id := "LROCWAC" } (by decide)

/-- Claim C9: `spacecraft_name` equals the generic `instrument_host_id`
field, with no transformation. -/
theorem spacecraft_name_delegates (l : Pds3LabelData) :
    spacecraft_name l = l.instrument_host_id := rfl

/-- Claim C6: `light_time_correction` is the literal 'NONE' for every driver
input. -/
theorem light_time_correction_always_none (l : Pds3LabelData) (s : SpiceStore) :
    light_time_correction l s = "NONE" := rfl

/-- Claim C4: the driver's exposure duration is the base-pipeline duration
times (1 + 0.0045) plus 0.0, which equals the base duration times 1.0045
exactly over ℚ. -/
theorem exposure_duration_formula (l : Pds3LabelData) :
    exposure_duration l = l.base_exposure_duration * (1 + 0.0045) + 0.0 ∧
    exposure_duration l = l.base_exposure_duration * 1.0045 := by
  constructor
  · rfl
  · unfold exposure_duration multipli_line_error additive_line_error
    norm_num

/-- Claim C3: ephemeris start time is `scs2e` of the preroll count plus the
constant time offset 0.0 plus the additional preroll 1024.0 times the
driver's exposure duration. -/
theorem ephemeris_start_time_formula (l : Pds3LabelData) (s : SpiceStore) :
    ephemeris_start_time l s =
      s.scs2e s.spacecraft_id l.preroll_count + 0.0 +
        1024.0 * exposure_duration l := by
  unfold ephemeris_start_time constant_time_offset additional_preroll
  norm_num

lemma charListLe_refl (a : List Char) : charListLe a a = true := by
  induction a with
  | nil => rfl
  | cons x as ih => simp [charListLe, lt_irrefl, ih]

lemma charListLe_total (a : List Char) :
    ∀ b, (charListLe a b || charListLe b a) = true := by
  induction a with
  | nil => intro b; simp [charListLe]
  | cons x as ih =>
    intro b
    cases b with
    | nil => simp [charListLe]
    | cons y bs =>
      simp only [charListLe]
      rcases lt_trichotomy x y with h | h | h
      · simp [h]
      · subst h
        simpa [lt_irrefl] using ih bs
      · simp [h, lt_asymm h]

lemma charListLe_trans (a : List Char) :
    ∀ b c, charListLe a b = true → charListLe b c = true →
      charListLe a c = true := by
  induction a with
  | nil => intro b c _ _; rfl
  | cons x as ih =>
    intro b c h1 h2
    cases b with
    | nil => simp [charListLe] at h1
    | cons y bs =>
      cases c with
      | nil => simp [charListLe] at h2
      | cons z cs =>
        simp only [charListLe] at h1 h2 ⊢
        rcases lt_trichotomy x y with hxy | hxy | hxy
        · rcases lt_trichotomy y z with hyz | hyz | hyz
          · simp [lt_trans hxy hyz]
          · subst hyz; simp [hxy]
          · simp [hyz, lt_asymm hyz] at h2
        · subst hxy
          simp only [lt_irrefl, if_false] at h1
          rcases lt_trichotomy x z with hxz | hxz | hxz
          · simp [hxz]
          · subst hxz
            simp only [lt_irrefl, if_false] at h2 ⊢
            exact ih bs cs h1 h2
          · simp [hxz, lt_asymm hxz] at h2
        · simp [hxy, lt_asymm hxy] at h1

lemma strLeRel_refl (a : String) : strLeRel a a :=
  charListLe_refl a.data

instance : IsTotal String strLeRel :=
  ⟨fun a b => by
    have h := charListLe_total a.data b.data
    rcases Bool.or_eq_true_iff.mp h with h' | h'
    · exact Or.inl h'
    · exact Or.inr h'⟩

instance : IsTrans String strLeRel :=
  ⟨fun a b c h1 h2 => charListLe_trans a.data b.data c.data h1 h2⟩

/-- A left fold that overwrites its accumulator at every element satisfying
`p` returns the last satisfying element, or the initial accumulator when
none satisfies `p`. -/
lemma foldl_overwrite {α : Type} (p : α → Bool) :
    ∀ (l : List α) (acc : Option α),
      l.foldl (fun a x => if p x then some x else a) acc
        = ((l.filter p).getLast?).or acc := by
  intro l
  induction l with
  | nil => intro acc; simp
  | cons x t ih =>
    intro acc
    rw [List.foldl_cons, ih]
    by_cases h : p x
    · rw [List.filter_cons_of_pos h, if_pos h]
      cases hfl : t.filter p with
      | nil => simp
      | cons y ys =>
        rw [List.getLast?_cons_cons]
        cases hgl : (y :: ys).getLast? with
        | none => exact absurd (List.getLast?_eq_none_iff.mp hgl) (by simp)
        | some z => rfl
    · rw [List.filter_cons_of_neg h, if_neg h]

/-- In a `Pairwise r` list, the last element is `r`-above every member. -/
lemma getLast_is_max {α : Type} {r : α → α → Prop} (hrefl : ∀ a, r a a) :
    ∀ l : List α, l.Pairwise r → ∀ f, l.getLast? = some f → ∀ g ∈ l, r g f := by
  intro l
  induction l with
  | nil => intro _ f hf; simp at hf
  | cons x t ih =>
    intro hp f hf g hg
    cases t with
    | nil =>
      simp only [List.getLast?_singleton, Option.some.injEq] at hf
      rcases List.mem_singleton.mp hg with rfl
      rcases hf with rfl
      exact hrefl g
    | cons y ys =>
      rw [List.getLast?_cons_cons] at hf
      rcases List.mem_cons.mp hg with rfl | hg'
      · exact (List.pairwise_cons.mp hp).1 f (List.mem_of_getLast?_eq_some hf)
      · exact ih (List.pairwise_cons.mp hp).2 f hf g hg'

/-- The match predicate of the `metakernel` loop. -/
def yearMatch (year : Nat) (mk : String) : Bool :=
  strContainsSub (basename mk) (toString year)

lemma metakernel_compute_eq_getLast (year : Nat) (files : List String) :
    metakernel_compute year files
      = ((sortedFilenames files).filter (yearMatch year)).getLast? := by
  unfold metakernel_compute metakernel_scan yearMatch
  rw [foldl_overwrite, Option.or_none]

lemma metakernel_compute_no_match (year : Nat) (files : List String)
    (hnone : ∀ g ∈ files, yearMatch year g = false) :
    metakernel_compute year files = none := by
  rw [metakernel_compute_eq_getLast]
  have hnil : (sortedFilenames files).filter (yearMatch year) = [] := by
    rw [List.filter_eq_nil_iff]
    intro a ha
    have hmem : a ∈ files :=
      (List.perm_insertionSort strLeRel files).mem_iff.mp ha
    simp [hnone a hmem]
  rw [hnil]
  rfl

lemma metakernel_compute_eq_some (year : Nat) (files : List String)
    (f : String) (hf : metakernel_compute year files = some f) :
    f ∈ files ∧ yearMatch year f = true ∧
      ∀ g ∈ files, yearMatch year g = true → strLe g f = true := by
  rw [metakernel_compute_eq_getLast] at hf
  have hfmem := List.mem_filter.mp (List.mem_of_getLast?_eq_some hf)
  have hperm := List.perm_insertionSort strLeRel files
  refine ⟨hperm.mem_iff.mp hfmem.1, hfmem.2, ?_⟩
  intro g hg hgp
  have hgmem : g ∈ (sortedFilenames files).filter (yearMatch year) :=
    List.mem_filter.mpr ⟨hperm.mem_iff.mpr hg, hgp⟩
  have hpw : ((sortedFilenames files).filter (yearMatch year)).Pairwise strLeRel :=
    List.Pairwise.filter _ (List.sorted_insertionSort strLeRel files)
  exact getLast_is_max strLeRel_refl _ hpw f hf g hgmem

/-- A concrete directory listing used by witness theorems. -/
def sampleFiles : List String :=
  ["/data/lro/lro_2014_v02.tm", "/data/lro/lro_2009_v01.tm",
   "/data/lro/lro_2014_v01.tm"]

/-- Claim C2: any file the resolver returns belongs to the listing, its
basename contains the decimal start year, and it is the lexicographically
last such file; when no file in the listing matches the year, the resolver
returns nothing. -/
theorem metakernel_resolves_start_year (year : Nat) (files : List String) :
    (∀ f, metakernel_compute year files = some f →
        f ∈ files ∧ strContainsSub (basename f) (toString year) = true ∧
        ∀ g ∈ files, strContainsSub (basename g) (toString year) = true →
          strLe g f = true) ∧
    (∀ g ∈ files, strContainsSub (basename g) (toString year) = true →
        ∃ f, metakernel_compute year files = some f) ∧
    ((∀ g ∈ files, strContainsSub (basename g) (toString year) = false) →
        metakernel_compute year files = none) := by
  refine ⟨fun f hf => metakernel_compute_eq_some year files f hf, ?_,
    fun hnone => metakernel_compute_no_match year files hnone⟩
  intro g hg hgp
  rw [metakernel_compute_eq_getLast]
  have hgmem : g ∈ (sortedFilenames files).filter (yearMatch year) :=
    List.mem_filter.mpr
      ⟨(List.perm_insertionSort strLeRel files).mem_iff.mpr hg, hgp⟩
  have hne := List.ne_nil_of_mem hgmem
  cases hlast : ((sortedFilenames files).filter (yearMatch year)).getLast? with
  | none => exact absurd (List.getLast?_eq_none_iff.mp hlast) hne
  | some f => exact ⟨f, rfl⟩

/-- Witness for C2: the resolver picks `/data/lro/lro_2014_v02.tm` out of
the sample listing for start year 2014, and its basename does contain
"2014". -/
theorem metakernel_resolves_start_year_witness :
    strContainsSub (basename "/data/lro/lro_2014_v02.tm") (toString 2014)
      = true :=
  (((metakernel_resolves_start_year 2014 sampleFiles).1
      "/data/lro/lro_2014_v02.tm" (by decide))).2.1

/-- Claim C7: unresolved lookups yield an absent value rather than an
error: an unrecognised (instrument, FRAME_ID) combination makes
`instrument_id` absent, and a listing with no file matching the start year
makes the metakernel resolver absent. -/
theorem unresolved_lookups_silent :
    (∀ l : Pds3LabelData,
        ¬(l.base_instrument_id = "LROC" ∧ l.frame_id = some "LEFT") →
        ¬(l.base_instrument_id = "LROC" ∧ l.frame_id = some "RIGHT") →
        instrument_id l = none) ∧
    (∀ (year : Nat) (files : List String),
        (∀ g ∈ files, strContainsSub (basename g) (toString year) = false) →
        metakernel_compute year files = none) := by
  constructor
  · intro l h1 h2
    simp only [instrument_id, if_neg h1, if_neg h2]
  · intro year files hnone
    exact metakernel_compute_no_match year files hnone

/-- Witness for C7: a FRAME_ID of "MIDDLE" and a listing with no 2020 file
both yield an absent result. -/
theorem unresolved_lookups_silent_witness :
    instrument_id { sampleLabel with frame_id := some "MIDDLE" } = none ∧
    metakernel_compute 2020 sampleFiles = none :=
  ⟨unresolved_lookups_silent.1 _ (by decide) (by decide),
   unresolved_lookups_silent.2 2020 sampleFiles (by decide)⟩

/-- Claim C5: the distortion model is the one-key dict "lrolrocnac" whose
value is the one-key dict "coefficients" holding the (one-element) slice of
the kernel-pool variable INS<ikid>_OD_K; the coefficient list has length
one whenever the pool variable is non-empty (the SPICE call errors
otherwise). -/
theorem usgscsm_distortion_model_shape (s : SpiceStore) (ikid : Int)
    (h : s.poolVars (odKey ikid) ≠ []) :
    (usgscsm_distortion_model s ikid).map Prod.fst = ["lrolrocnac"] ∧
    (usgscsm_distortion_model s ikid).lookup "lrolrocnac" =
      some [("coefficients", odtk s ikid)] ∧
    (odtk s ikid).length = 1 ∧
    odtk s ikid = (s.poolVars (odKey ikid)).take 1 := by
  refine ⟨rfl, ?_, ?_, rfl⟩
  · simp [usgscsm_distortion_model, List.lookup]
  · unfold odtk gdpool
    have hpos := List.length_pos.mpr h
    simp only [List.drop_zero, List.length_take]
    omega

/-- A concrete store used by witness theorems. -/
def sampleStore : SpiceStore :=
  { scs2e := fun _ _ => 0
    poolVars := fun _ => [(1.81e-5 : ℚ)]
    spacecraft_id := -85 }

/-- Witness for C5: on the sample store the coefficient list has length
one. -/
theorem usgscsm_distortion_model_shape_witness :
    (odtk sampleStore (-85600)).length = 1 :=
  (usgscsm_distortion_model_shape sampleStore (-85600)
      (List.cons_ne_nil _ _)).2.2.1

lemma metakernel_accesses_cached (w : Option String) :
    ∀ accs : List (Nat × List String),
      metakernel_accesses accs ⟨some w⟩
        = (List.replicate accs.length w, ⟨some w⟩) := by
  intro accs
  induction accs with
  | nil => rfl
  | cons a rest ih =>
    cases a with
    | mk y fs =>
      simp [metakernel_accesses, metakernel_property, ih, List.replicate]

/-- Claim C8: after the first access of the `metakernel` property, every
later access returns the value computed at the first access, whatever
directory listing and start year those later accesses observe. -/
theorem metakernel_cached_after_first (y : Nat) (fs : List String)
    (accs : List (Nat × List String)) :
    (metakernel_accesses accs (metakernel_property y fs initCache).2).1
      = List.replicate accs.length (metakernel_property y fs initCache).1 := by
  have h2 : (metakernel_property y fs initCache).2
      = ⟨some (metakernel_compute y fs)⟩ := rfl
  have h1 : (metakernel_property y fs initCache).1
      = metakernel_compute y fs := rfl
  rw [h1, h2, metakernel_accesses_cached]

end LroDrivers
